import Mathlib

/-
Verification development for the `sim_log_azot` repository: an asynchronous
logging pipeline (crates `logger`, `logger_derive`, `test_app`).

Embedding conventions:
- Rust `&str` / `String` values are embedded as `List Char` (written with
  `"...".data` for readability); `i32` as `Int`, `u32` as `Nat`.
- `chrono::DateTime<Utc>` is embedded as `UtcInstant`, a record of the
  calendar field accessors the code uses (`year()`, `month()`, `day()`,
  `hour()`, `minute()`, `second()`).
- `str::replace` is embedded as `replaceList` (leftmost, non-overlapping,
  replaces every occurrence, replacement text is not rescanned) — matching
  Rust semantics for the nonempty patterns the code uses.
- `i32::to_string` / `u32` display is embedded as `decimal` / `yearStr`;
  Rust's `format!("{:02}", x)` zero-padding as `pad2Nat` / `pad2Int`
  (sign counts toward the width, as in Rust).
- Rust's `%` on `i32` is truncated remainder, i.e. `Int.tmod`.
-/

-- ============================================================
-- Data model: timestamps and log records (src/logger/src/sub_func.rs)
-- ============================================================

/-- Embedding of a `chrono::DateTime<Utc>` instant: the calendar accessors
the logger reads. `year` is `i32` (can be negative / below 1000 for ancient
dates); the other accessors return `u32`. -/
structure UtcInstant where
  year : Int
  month : Nat
  day : Nat
  hour : Nat
  minute : Nat
  second : Nat
deriving DecidableEq, Repr

/-- Embedding of `LogRecord` (sub_func.rs lines 15-21): color, heading,
message, timestamp and severity `lvl : i32`. -/
structure LogRecord where
  color : List Char
  heading : List Char
  msg : List Char
  timestamp : UtcInstant
  lvl : Int
deriving DecidableEq, Repr

-- ============================================================
-- Decimal rendering (embedding of Rust integer display / `{:02}` padding)
-- ============================================================

/-- Fuel-driven digit accumulator: peels decimal digits from the low end.
The fuel `n + 1` in `decimal` always suffices since a number has at most
`n + 1` digits. -/
def decimalGo : Nat → Nat → List Char → List Char
  | 0, _, acc => acc
  | Nat.succ fuel, n, acc =>
    if n < 10 then Nat.digitChar n :: acc
    else decimalGo fuel (n / 10) (Nat.digitChar (n % 10) :: acc)

/-- Decimal rendering of a natural number, as Rust's `u32` display
produces it (no sign, no padding, `0` renders as `"0"`). -/
def decimal (n : Nat) : List Char := decimalGo (n + 1) n []

/-- Embedding of `i32::to_string` as used on `record.timestamp.year()`
(sub_func.rs line 94): decimal digits with a leading minus sign for
negative values and no zero padding. -/
def yearStr (i : Int) : List Char :=
  if i < 0 then '-' :: decimal (-i).toNat else decimal i.toNat

/-- Embedding of `format!("{:02}", n)` for a nonnegative (`u32`) value:
zero-pad the decimal rendering on the left to width 2. -/
def pad2Nat (n : Nat) : List Char :=
  List.replicate (2 - (decimal n).length) '0' ++ decimal n

/-- Embedding of `format!("{:02}", i)` for an `i32` value (used on
`year % 100`, sub_func.rs line 95): for negatives the sign counts toward
the width, as in Rust, so zeros are inserted after the sign. -/
def pad2Int (i : Int) : List Char :=
  if i < 0 then
    '-' :: (List.replicate (1 - (decimal (-i).toNat).length) '0' ++ decimal (-i).toNat)
  else pad2Nat i.toNat

-- ============================================================
-- str::replace embedding
-- ============================================================

/-- Scanner for `str::replace`: walks the subject string; a positive
counter skips characters already consumed by a match (the replacement text
itself is never rescanned); at counter 0, a prefix match of `pat` emits
`rep` and skips the rest of the match, otherwise the character is copied. -/
def replaceGo (pat rep : List Char) : List Char → Nat → List Char
  | [], _ => []
  | _ :: rest, Nat.succ k => replaceGo pat rep rest k
  | c :: rest, 0 =>
    if pat.isPrefixOf (c :: rest) then rep ++ replaceGo pat rep rest (pat.length - 1)
    else c :: replaceGo pat rep rest 0

/-- Embedding of Rust `str::replace s pat rep`: replaces every leftmost
non-overlapping occurrence of `pat` in `s` by `rep`. (The code only ever
calls it with the nonempty token patterns `"YYYY"`, `"YY"`, `"DD"`,
`"HH"`, `"MM"`, `"SS"`; the empty-pattern case is never exercised.) -/
def replaceList (s pat rep : List Char) : List Char :=
  if pat = [] then s else replaceGo pat rep s 0

-- ============================================================
-- Timestamp formatter (sub_func.rs lines 92-100)
-- ============================================================

/-- Embedding of `format_log_record_time(record, pattern)`: the chained
`.replace` calls in source order `YYYY → YY → DD → HH → MM → SS`, with
`YYYY ↦ year().to_string()` (unpadded), `YY ↦ {:02} of year() % 100`
(truncated remainder), and `{:02}` two-digit zero-padding for the rest. -/
def format_log_record_time (record : LogRecord) (pattern : List Char) : List Char :=
  replaceList
    (replaceList
      (replaceList
        (replaceList
          (replaceList
            (replaceList pattern ("YYYY".data) (yearStr record.timestamp.year))
            ("YY".data) (pad2Int (Int.tmod record.timestamp.year 100)))
          ("DD".data) (pad2Nat record.timestamp.day))
        ("HH".data) (pad2Nat record.timestamp.hour))
      ("MM".data) (pad2Nat record.timestamp.minute))
    ("SS".data) (pad2Nat record.timestamp.second)

/-- The pattern the built-in console handler passes to the formatter
(sub_func.rs line 36): `"YY-MM-DD HH:MM:SS"`. -/
def consolePattern : List Char := ("YY-MM-DD HH:MM:SS".data)

/-- Embedding of the text content of the console handler's
`println!("[{}] : {} -> {}", heading, ts, msg)` line (sub_func.rs
lines 35-39), with the terminal styling abstracted away. -/
def console_handle_line (r : LogRecord) : List Char :=
  '[' :: (r.heading ++ (']' :: ' ' :: ':' :: ' ' ::
    (format_log_record_time r consolePattern ++
      (' ' :: '-' :: '>' :: ' ' :: r.msg))))

-- ============================================================
-- Color mapper (sub_func.rs lines 62-87)
-- ============================================================

/-- The named terminal foreground styles of the `colored` crate that the
mapper can produce: the 8 standard colors, their 8 bright variants. -/
inductive TermColor
  | black | red | green | yellow | blue | magenta | cyan | white
  | brightBlack | brightRed | brightGreen | brightYellow
  | brightBlue | brightMagenta | brightCyan | brightWhite
deriving DecidableEq, Repr

/-- Embedding of the `colored` crate's `ColoredString` as the logger uses
it: the text plus the foreground style applied to it. -/
structure ColoredString where
  text : List Char
  fg : TermColor
deriving DecidableEq, Repr

/-- First textual spelling of a foreground code as it appears in the
source: the Rust literal `"\033[d1d2m"`, in which `\0` is the NUL
character (Rust has no octal escapes), followed by `33[d1d2m`. -/
def octSpelling (d1 d2 : Char) : List Char :=
  '\x00' :: '3' :: '3' :: '[' :: d1 :: d2 :: 'm' :: []

/-- Second textual spelling: the Rust literal `"\x1b[d1d2m"`, a real ANSI
escape sequence starting with ESC. -/
def hexSpelling (d1 d2 : Char) : List Char :=
  '\x1b' :: '[' :: d1 :: d2 :: 'm' :: []

/-- Embedding of `ansi_to_colored(ansi, text)` (sub_func.rs lines 62-87):
a match on the 16 recognized codes, each in its two spellings, with a
catch-all mapping every other string to white. -/
def ansi_to_colored (ansi : List Char) (text : List Char) : ColoredString :=
  if ansi = octSpelling '3' '0' ∨ ansi = hexSpelling '3' '0' then ⟨text, .black⟩
  else if ansi = octSpelling '3' '1' ∨ ansi = hexSpelling '3' '1' then ⟨text, .red⟩
  else if ansi = octSpelling '3' '2' ∨ ansi = hexSpelling '3' '2' then ⟨text, .green⟩
  else if ansi = octSpelling '3' '3' ∨ ansi = hexSpelling '3' '3' then ⟨text, .yellow⟩
  else if ansi = octSpelling '3' '4' ∨ ansi = hexSpelling '3' '4' then ⟨text, .blue⟩
  else if ansi = octSpelling '3' '5' ∨ ansi = hexSpelling '3' '5' then ⟨text, .magenta⟩
  else if ansi = octSpelling '3' '6' ∨ ansi = hexSpelling '3' '6' then ⟨text, .cyan⟩
  else if ansi = octSpelling '3' '7' ∨ ansi = hexSpelling '3' '7' then ⟨text, .white⟩
  else if ansi = octSpelling '9' '0' ∨ ansi = hexSpelling '9' '0' then ⟨text, .brightBlack⟩
  else if ansi = octSpelling '9' '1' ∨ ansi = hexSpelling '9' '1' then ⟨text, .brightRed⟩
  else if ansi = octSpelling '9' '2' ∨ ansi = hexSpelling '9' '2' then ⟨text, .brightGreen⟩
  else if ansi = octSpelling '9' '3' ∨ ansi = hexSpelling '9' '3' then ⟨text, .brightYellow⟩
  else if ansi = octSpelling '9' '4' ∨ ansi = hexSpelling '9' '4' then ⟨text, .brightBlue⟩
  else if ansi = octSpelling '9' '5' ∨ ansi = hexSpelling '9' '5' then ⟨text, .brightMagenta⟩
  else if ansi = octSpelling '9' '6' ∨ ansi = hexSpelling '9' '6' then ⟨text, .brightCyan⟩
  else if ansi = octSpelling '9' '7' ∨ ansi = hexSpelling '9' '7' then ⟨text, .brightWhite⟩
  else ⟨text, .white⟩

/-- The match table of `ansi_to_colored`: each recognized code's two
spellings and the style its arm produces, in source order. -/
def ansiTable : List ((List Char × List Char) × TermColor) :=
  [((octSpelling '3' '0', hexSpelling '3' '0'), .black),
   ((octSpelling '3' '1', hexSpelling '3' '1'), .red),
   ((octSpelling '3' '2', hexSpelling '3' '2'), .green),
   ((octSpelling '3' '3', hexSpelling '3' '3'), .yellow),
   ((octSpelling '3' '4', hexSpelling '3' '4'), .blue),
   ((octSpelling '3' '5', hexSpelling '3' '5'), .magenta),
   ((octSpelling '3' '6', hexSpelling '3' '6'), .cyan),
   ((octSpelling '3' '7', hexSpelling '3' '7'), .white),
   ((octSpelling '9' '0', hexSpelling '9' '0'), .brightBlack),
   ((octSpelling '9' '1', hexSpelling '9' '1'), .brightRed),
   ((octSpelling '9' '2', hexSpelling '9' '2'), .brightGreen),
   ((octSpelling '9' '3', hexSpelling '9' '3'), .brightYellow),
   ((octSpelling '9' '4', hexSpelling '9' '4'), .brightBlue),
   ((octSpelling '9' '5', hexSpelling '9' '5'), .brightMagenta),
   ((octSpelling '9' '6', hexSpelling '9' '6'), .brightCyan),
   ((octSpelling '9' '7', hexSpelling '9' '7'), .brightWhite)]

/-- All 32 recognized input strings (both spellings of the 16 codes). -/
def recognizedCodes : List (List Char) :=
  ansiTable.flatMap (fun e => [e.1.1, e.1.2])

-- ============================================================
-- Dispatch loop (sub_func.rs lines 45-57) and handlers
-- ============================================================

/-- Handlers as the dispatch loop's `Vec<Box<dyn LogHandler>>` holds them:
the built-in console handler, or a caller-supplied boxed handler
identified by its position among the extras. -/
inductive Handler
  | console
  | custom (id : Nat)
deriving DecidableEq, Repr

/-- Observable calls the dispatch loop makes into a handler: a
`handle(&record)` call or a `flush()` call. -/
inductive LogEvent
  | handle (h : Handler) (r : LogRecord)
  | flushCall (h : Handler)
deriving DecidableEq, Repr

/-- Discriminator for flush events. -/
def LogEvent.isFlushCall : LogEvent → Bool
  | .flushCall _ => true
  | .handle _ _ => false

/-- Embedding of `logger_thread(rx, handlers)`: `rx` is the sequence of
records the channel delivers before it reports closure. The
`while let Ok(record) = rx.recv()` loop hands each record to every
handler in list order; once `recv` errs (channel closed) the loop exits
and flushes every handler in list order, then the thread ends. -/
def logger_thread (rx : List LogRecord) (handlers : List Handler) : List LogEvent :=
  match rx with
  | [] => handlers.map LogEvent.flushCall
  | r :: rest =>
    handlers.map (fun h => LogEvent.handle h r) ++ logger_thread rest handlers

-- ============================================================
-- Global logger state and the public API (sub_func.rs lines 26-179)
-- ============================================================

/-- Process-wide logger state. `tx` models whether the `TX : OnceLock`
static holds the channel sender; `minLevel` models `MIN_LEVEL_LOG`
(`none` until set); `handlers` is the list the spawned dispatch thread
owns; `spawns` counts dispatch threads spawned; `sent` is the sequence of
records pushed onto the channel. `senderDropped` / `receiverDropped`
model the channel ends being dropped — the sender lives in a `static`
(never dropped) and the receiver lives in the dispatch thread's loop;
no field of the state is ever cleared by any public operation. -/
structure GlobalState where
  tx : Bool
  minLevel : Option Int
  handlers : List Handler
  spawns : Nat
  sent : List LogRecord
  senderDropped : Bool
  receiverDropped : Bool
deriving DecidableEq, Repr

/-- The state at process start: nothing initialized. -/
def initState : GlobalState :=
  { tx := false, minLevel := none, handlers := [], spawns := 0, sent := [],
    senderDropped := false, receiverDropped := false }

/-- Embedding of `init_logger(min_level)` (sub_func.rs lines 123-145).
The first component models the `panic!` channel: `some msg` means the
calling thread terminates fatally with that message (never a recoverable
result), `none` a normal return. On success: a channel is created, a
dispatch thread owning `[ConsoleHandler]` is spawned, `TX` and
`MIN_LEVEL_LOG` are set. -/
def init_logger (min_level : Int) (s : GlobalState) : Option (List Char) × GlobalState :=
  if s.tx then (some ("Logger already initialized! Cannot initialize twice.".data), s)
  else (none, { s with
                tx := true
                minLevel := some min_level
                handlers := [Handler.console]
                spawns := s.spawns + 1 })

/-- Embedding of `init_logger_with_handlers(custom_handlers, min_level)`
(sub_func.rs lines 150-175): identical, except that the spawned thread's
handler list is the console handler followed by the custom handlers in
the caller's order. -/
def init_logger_with_handlers (custom_handlers : List Handler) (min_level : Int)
    (s : GlobalState) : Option (List Char) × GlobalState :=
  if s.tx then (some ("Logger already initialized! Cannot initialize twice.".data), s)
  else (none, { s with
                tx := true
                minLevel := some min_level
                handlers := Handler.console :: custom_handlers
                spawns := s.spawns + 1 })

/-- Embedding of `internal_send_log(data)` (sub_func.rs lines 107-118),
sequential semantics: if `TX` is unset, perform the implicit default
initialization `init_logger(0)` (which cannot panic here since `TX` is
unset); then `tx.send(data)` — which fails only if the receiver end is
gone, in which case the record is lost and `"Logger thread died!"` goes
to stderr (not a panic); otherwise the record is enqueued. Note: no
severity field of `data` is ever inspected. -/
def internal_send_log (data : LogRecord) (s : GlobalState) : Option (List Char) × GlobalState :=
  let s1 := if s.tx then s else (init_logger 0 s).2
  if s1.receiverDropped then (none, s1)
  else (none, { s1 with sent := s1.sent ++ [data] })

/-- Embedding of `is_my_level(lvl)` (sub_func.rs lines 177-179):
`lvl >= *MIN_LEVEL_LOG.get().unwrap_or(&0)`. -/
def is_my_level (lvl : Int) (s : GlobalState) : Bool :=
  decide (s.minLevel.getD 0 ≤ lvl)

/-- The public operations of the logger crate, as producer threads can
invoke them. -/
inductive LoggerOp
  | initL (min_level : Int)
  | initH (custom_handlers : List Handler) (min_level : Int)
  | send (data : LogRecord)
  | query (lvl : Int)
deriving DecidableEq, Repr

/-- One public call: the panic outcome (if any) and the new state.
`query` is a pure read. -/
def stepOp (s : GlobalState) (op : LoggerOp) : Option (List Char) × GlobalState :=
  match op with
  | .initL m => init_logger m s
  | .initH cs m => init_logger_with_handlers cs m s
  | .send r => internal_send_log r s
  | .query _ => (none, s)

/-- Run a sequence of public calls, keeping only the state (a panic kills
the calling thread but the process state persists). -/
def runOps (s : GlobalState) (ops : List LoggerOp) : GlobalState :=
  ops.foldl (fun s op => (stepOp s op).2) s

/-- Does the operation initialize the logger when run on an uninitialized
state? All operations except the pure `is_my_level` query do (the two
explicit paths, and `internal_send_log`'s implicit default path). -/
def LoggerOp.initializes : LoggerOp → Bool
  | .query _ => false
  | _ => true

/-- The threshold established by the first initializing operation of a
call sequence: the explicit `min_level` for the two init functions, `0`
for the implicit default path, `none` if no operation initializes. -/
def firstInitThreshold : List LoggerOp → Option Int
  | [] => none
  | .initL m :: _ => some m
  | .initH _ m :: _ => some m
  | .send _ :: _ => some 0
  | .query _ :: rest => firstInitThreshold rest

/-- The handler calls observable so far in a process state: if the channel
has reported closure (all senders dropped) the dispatch loop has drained
and flushed; otherwise it has handled each sent record and is blocked in
`recv` — no flush has happened. -/
def dispatchEvents (s : GlobalState) : List LogEvent :=
  if s.senderDropped then logger_thread s.sent s.handlers
  else s.sent.flatMap (fun r => s.handlers.map (fun h => LogEvent.handle h r))

-- ============================================================
-- The derive macro's generated log() (src/logger_derive/src/lib.rs 82-108)
-- ============================================================

/-- The record literal the `quote!` block of `derive_log_level` emits:
fields `color`, `heading`, `msg`, `timestamp` — and no severity field
(the macro neither parses the `level` attribute nor emits `lvl`, even
though `LogRecord` declares it). -/
structure GeneratedRecord where
  color : List Char
  heading : List Char
  msg : List Char
  timestamp : UtcInstant
deriving DecidableEq, Repr

/-- Embedding of the body of the `log(&self, msg)` method generated by
`derive_log_level` for a level with the given `color` and `heading`
attributes: it unconditionally constructs the record literal and passes
it to `internal_send_log`. `some` models "a record was constructed and
submitted"; `none` would model an early return without submission — no
branch of the generated code produces it, as the macro emits no
`is_my_level` / threshold check at all. -/
def generated_log (color heading : List Char) (msg : List Char)
    (now : UtcInstant) : Option GeneratedRecord :=
  some { color := color, heading := heading, msg := msg, timestamp := now }

-- ============================================================
-- Interleaving model for the implicit-initialization race
-- (internal_send_log, sub_func.rs lines 107-118 + init_logger 123-145)
-- ============================================================

/-- Program counter of one producer thread running `internal_send_log`
from an uninitialized process. The atomic shared-memory operations of the
code, in program order, are: the outer `TX.get().is_none()` read; inside
`init_logger`, the `TX.get().is_some()` read (on `true` this is
`panic!("Logger already initialized! ...")`); `channel()` plus
`thread::spawn` (purely thread-local allocation of a channel and a
dispatch thread); and `TX.set(tx)`, whose `expect` panics with
`"Failed to set logger transmitter"` if another thread set `TX` first. -/
inductive RacePhase
  | start
  | outerPassed
  | innerPassed
  | spawnedChan
  | finished
  | panicked (msg : List Char)
deriving DecidableEq, Repr

/-- Shared state plus the two racing threads' program counters. `txSet`
is the `TX : OnceLock` cell; `spawns` and `chans` count dispatch threads
and channels created process-wide. -/
structure RaceState where
  txSet : Bool
  spawns : Nat
  chans : Nat
  t1 : RacePhase
  t2 : RacePhase
deriving DecidableEq, Repr

/-- One atomic step of a thread at the given phase against the shared
cell: returns the new shared cell value, increments to the counters, and
the thread's next phase. -/
def racePhaseStep (txSet : Bool) (ph : RacePhase) : Bool × Nat × RacePhase :=
  match ph with
  | .start =>
    if txSet then (txSet, 0, .finished) else (txSet, 0, .outerPassed)
  | .outerPassed =>
    if txSet then (txSet, 0, .panicked ("Logger already initialized! Cannot initialize twice.".data))
    else (txSet, 0, .innerPassed)
  | .innerPassed => (txSet, 1, .spawnedChan)
  | .spawnedChan =>
    if txSet then (txSet, 0, .panicked ("Failed to set logger transmitter".data))
    else (true, 0, .finished)
  | .finished => (txSet, 0, .finished)
  | .panicked m => (txSet, 0, .panicked m)

/-- Step the scheduled thread (`false` = thread 1, `true` = thread 2). -/
def raceStep (s : RaceState) (tid : Bool) : RaceState :=
  if tid then
    match racePhaseStep s.txSet s.t2 with
    | (tx, k, ph) => { s with txSet := tx, spawns := s.spawns + k, chans := s.chans + k, t2 := ph }
  else
    match racePhaseStep s.txSet s.t1 with
    | (tx, k, ph) => { s with txSet := tx, spawns := s.spawns + k, chans := s.chans + k, t1 := ph }

/-- Run a schedule (list of thread choices) from the uninitialized
process state with both threads about to execute `internal_send_log`. -/
def runRace (sched : List Bool) : RaceState :=
  sched.foldl raceStep
    { txSet := false, spawns := 0, chans := 0, t1 := .start, t2 := .start }

-- ============================================================
-- Helper lemmas: str::replace scanner
-- ============================================================

/-- A list is a boolean prefix of itself followed by anything. -/
theorem isPrefixOf_append_self : ∀ (xs ys : List Char), xs.isPrefixOf (xs ++ ys) = true := by
  intro xs ys
  induction xs with
  | nil => cases ys <;> rfl
  | cons c rest ih => simp [List.isPrefixOf, ih]

/-- A boolean prefix is no longer than the list it prefixes. -/
theorem length_le_of_isPrefixOf {xs ys : List Char} (h : xs.isPrefixOf ys = true) :
    xs.length ≤ ys.length :=
  (List.isPrefixOf_iff_prefix.mp h).length_le

/-- A positive skip counter consumes exactly that many characters before
scanning resumes. -/
theorem replaceGo_skip (pat rep : List Char) :
    ∀ (s : List Char) (k : Nat), replaceGo pat rep s k = replaceGo pat rep (s.drop k) 0 := by
  intro s
  induction s with
  | nil => intro k; cases k <;> rfl
  | cons c rest ih =>
    intro k
    cases k with
    | zero => rfl
    | succ k => simpa [replaceGo] using ih k

/-- Scanning a string that starts with the (nonempty) pattern emits the
replacement and resumes after the match. -/
theorem replaceGo_match (p : Char) (ps rep ys : List Char) :
    replaceGo (p :: ps) rep ((p :: ps) ++ ys) 0 = rep ++ replaceGo (p :: ps) rep ys 0 := by
  have hpre : (p :: ps).isPrefixOf ((p :: ps) ++ ys) = true := isPrefixOf_append_self _ _
  have h1 : replaceGo (p :: ps) rep ((p :: ps) ++ ys) 0
      = rep ++ replaceGo (p :: ps) rep (ps ++ ys) ((p :: ps).length - 1) := by
    simp only [List.cons_append, replaceGo]
    rw [if_pos (by exact hpre)]
    rfl
  rw [h1, replaceGo_skip]
  simp

/-- Characters that differ from the pattern's first character can never
start a match, so the scanner copies them through. -/
theorem replaceGo_append (p : Char) (ps rep : List Char) :
    ∀ (xs ys : List Char), (∀ c ∈ xs, c ≠ p) →
      replaceGo (p :: ps) rep (xs ++ ys) 0 = xs ++ replaceGo (p :: ps) rep ys 0 := by
  intro xs
  induction xs with
  | nil => intro ys _; rfl
  | cons c rest ih =>
    intro ys h
    have hc : c ≠ p := h c (List.mem_cons_self c rest)
    have hpc : (p == c) = false := beq_eq_false_iff_ne.mpr (Ne.symm hc)
    have hnp : (p :: ps).isPrefixOf (c :: (rest ++ ys)) = false := by
      simp [List.isPrefixOf, hpc]
    simp only [List.cons_append, replaceGo]
    rw [if_neg (by simp [hnp])]
    simp only [List.append_eq]
    rw [ih ys (fun d hm => h d (List.mem_cons_of_mem _ hm))]

/-- Copy-through for a single safe character. -/
theorem replaceGo_cons (p : Char) (ps rep : List Char) (c : Char) (ys : List Char)
    (hc : c ≠ p) :
    replaceGo (p :: ps) rep (c :: ys) 0 = c :: replaceGo (p :: ps) rep ys 0 := by
  simpa using replaceGo_append p ps rep [c] ys (by simpa using hc)

/-- When the replacement has the same length as the (nonempty) pattern,
scanning preserves length, up to the skip counter. -/
theorem replaceGo_length (p : Char) (ps rep : List Char)
    (hlen : rep.length = (p :: ps).length) :
    ∀ (s : List Char) (k : Nat), k ≤ s.length →
      (replaceGo (p :: ps) rep s k).length = s.length - k := by
  intro s
  induction s with
  | nil =>
    intro k hk
    have hk0 : k = 0 := by simpa using hk
    subst hk0; rfl
  | cons c rest ih =>
    intro k hk
    cases k with
    | succ k =>
      have hrec : (replaceGo (p :: ps) rep rest k).length = rest.length - k :=
        ih k (by simpa using hk)
      simpa [replaceGo] using hrec
    | zero =>
      by_cases hpre : (p :: ps).isPrefixOf (c :: rest) = true
      · have hle : (p :: ps).length ≤ (c :: rest).length := length_le_of_isPrefixOf hpre
        have hskip : (replaceGo (p :: ps) rep rest ((p :: ps).length - 1)).length
            = rest.length - ((p :: ps).length - 1) := by
          apply ih
          simp only [List.length_cons] at hle ⊢
          omega
        simp only [replaceGo, if_pos hpre, List.length_append, hskip, hlen]
        simp only [List.length_cons] at hle ⊢
        omega
      · have hrec : (replaceGo (p :: ps) rep rest 0).length = rest.length - 0 :=
          ih 0 (Nat.zero_le _)
        simp only [replaceGo, if_neg hpre, List.length_cons, hrec]
        omega

/-- `replaceList` preserves length whenever the replacement string has
exactly the pattern's length. -/
theorem replaceList_length (s pat rep : List Char) (hlen : rep.length = pat.length) :
    (replaceList s pat rep).length = s.length := by
  unfold replaceList
  cases pat with
  | nil => simp
  | cons p ps =>
    rw [if_neg (by simp)]
    simpa using replaceGo_length p ps rep hlen s 0 (Nat.zero_le _)

-- ============================================================
-- Helper lemmas: decimal rendering
-- ============================================================

/-- Number of decimal digits (proof-side companion of `decimal`). -/
def digitsLen (n : Nat) : Nat :=
  if n < 10 then 1 else digitsLen (n / 10) + 1
termination_by n
decreasing_by exact Nat.div_lt_self (by omega) (by omega)

theorem digitsLen_small {n : Nat} (h : n < 10) : digitsLen n = 1 := by
  rw [digitsLen, if_pos h]

theorem digitsLen_step {n : Nat} (h : ¬ n < 10) : digitsLen n = digitsLen (n / 10) + 1 := by
  rw [digitsLen, if_neg h]

theorem digitsLen_pos (n : Nat) : 1 ≤ digitsLen n := by
  by_cases h : n < 10
  · rw [digitsLen_small h]
  · rw [digitsLen_step h]; omega

/-- The digit accumulator appends its output in front of the accumulator. -/
theorem decimalGo_append : ∀ (fuel n : Nat) (acc : List Char), n < fuel →
    decimalGo fuel n acc = decimalGo fuel n [] ++ acc := by
  intro fuel
  induction fuel with
  | zero => intro n acc h; omega
  | succ fuel ih =>
    intro n acc h
    by_cases hn : n < 10
    · simp [decimalGo, hn]
    · have hlt : n / 10 < fuel := by omega
      rw [decimalGo, decimalGo, if_neg hn, if_neg hn, ih _ _ hlt,
        ih (n / 10) [Nat.digitChar (n % 10)] hlt, List.append_assoc]
      rfl

/-- The digit accumulator does not depend on the exact fuel, as long as
the fuel exceeds the number. -/
theorem decimalGo_fuel : ∀ (n fuel fuel' : Nat), n < fuel → n < fuel' →
    decimalGo fuel n [] = decimalGo fuel' n [] := by
  intro n
  induction n using Nat.strong_induction_on with
  | _ n ih =>
    intro fuel fuel' h h'
    cases fuel with
    | zero => omega
    | succ fuel =>
      cases fuel' with
      | zero => omega
      | succ fuel' =>
        by_cases hn : n < 10
        · simp [decimalGo, hn]
        · have hd : n / 10 < n := Nat.div_lt_self (by omega) (by omega)
          have hf : n / 10 < fuel := by omega
          have hf' : n / 10 < fuel' := by omega
          rw [decimalGo, decimalGo, if_neg hn, if_neg hn,
            decimalGo_append fuel (n / 10) [Nat.digitChar (n % 10)] hf,
            decimalGo_append fuel' (n / 10) [Nat.digitChar (n % 10)] hf',
            ih (n / 10) hd fuel fuel' hf hf']

/-- Unfolding `decimal` for one-digit numbers. -/
theorem decimal_small {n : Nat} (h : n < 10) : decimal n = [Nat.digitChar n] := by
  simp [decimal, decimalGo, h]

/-- Unfolding `decimal` for multi-digit numbers: leading digits followed
by the last digit. -/
theorem decimal_step {n : Nat} (h : ¬ n < 10) :
    decimal n = decimal (n / 10) ++ [Nat.digitChar (n % 10)] := by
  have hd : n / 10 < n := Nat.div_lt_self (by omega) (by omega)
  rw [decimal, decimal, decimalGo, if_neg h,
    decimalGo_append n (n / 10) _ (by omega),
    decimalGo_fuel (n / 10) n (n / 10 + 1) (by omega) (by omega)]

/-- `decimal` renders exactly `digitsLen n` characters. -/
theorem decimal_length (n : Nat) : (decimal n).length = digitsLen n := by
  induction n using Nat.strong_induction_on with
  | _ n ih =>
    by_cases h : n < 10
    · rw [decimal_small h, digitsLen_small h]; rfl
    · have hd : n / 10 < n := Nat.div_lt_self (by omega) (by omega)
      rw [decimal_step h, digitsLen_step h]
      simp [ih (n / 10) hd]

/-- Every character `decimal` produces is a decimal digit. -/
theorem decimal_chars (n : Nat) : ∀ c ∈ decimal n, c ∈ ("0123456789".data) := by
  induction n using Nat.strong_induction_on with
  | _ n ih =>
    have hdig : ∀ d, d < 10 → Nat.digitChar d ∈ ("0123456789".data) := by decide
    by_cases h : n < 10
    · rw [decimal_small h]
      intro c hc
      rw [List.mem_singleton] at hc
      exact hc ▸ hdig n h
    · have hd : n / 10 < n := Nat.div_lt_self (by omega) (by omega)
      rw [decimal_step h]
      intro c hc
      rcases List.mem_append.mp hc with hc | hc
      · exact ih (n / 10) hd c hc
      · rw [List.mem_singleton] at hc
        exact hc ▸ hdig (n % 10) (Nat.mod_lt n (by omega))

/-- Two-digit bound: numbers up to 99 render in at most 2 characters. -/
theorem digitsLen_le_two {n : Nat} (h : n ≤ 99) : digitsLen n ≤ 2 := by
  by_cases h1 : n < 10
  · rw [digitsLen_small h1]; omega
  · rw [digitsLen_step h1, digitsLen_small (show n / 10 < 10 by omega)]

/-- Four-digit years render in exactly 4 characters. -/
theorem digitsLen_year {n : Nat} (h1 : 1000 ≤ n) (h2 : n ≤ 9999) : digitsLen n = 4 := by
  rw [digitsLen_step (by omega), digitsLen_step (by omega),
    digitsLen_step (by omega), digitsLen_small (by omega)]

/-- `format!("{:02}", n)` renders values up to 99 in exactly 2 characters. -/
theorem pad2Nat_length {n : Nat} (h : n ≤ 99) : (pad2Nat n).length = 2 := by
  have h2 : (decimal n).length ≤ 2 := decimal_length n ▸ digitsLen_le_two h
  have h1 : 1 ≤ (decimal n).length := decimal_length n ▸ digitsLen_pos n
  simp only [pad2Nat, List.length_append, List.length_replicate]
  omega

/-- Characters that can appear in any of the formatter's replacement
strings: decimal digits and the minus sign. -/
def numChars : List Char := ("0123456789-".data)

theorem pad2Nat_chars (n : Nat) : ∀ c ∈ pad2Nat n, c ∈ numChars := by
  intro c hc
  rcases List.mem_append.mp hc with hc | hc
  · rw [List.eq_of_mem_replicate hc]; decide
  · have := decimal_chars n c hc
    revert this
    intro h
    fin_cases h <;> decide

theorem pad2Int_chars (i : Int) : ∀ c ∈ pad2Int i, c ∈ numChars := by
  intro c hc
  by_cases h : i < 0
  · simp only [pad2Int, if_pos h, List.mem_cons, List.mem_append] at hc
    rcases hc with hc | hc | hc
    · subst hc; decide
    · rw [List.eq_of_mem_replicate hc]; decide
    · have h2 := decimal_chars (-i).toNat c hc
      revert h2
      intro h2
      fin_cases h2 <;> decide
  · simp only [pad2Int, if_neg h] at hc
    exact pad2Nat_chars _ c hc

theorem yearStr_chars (i : Int) : ∀ c ∈ yearStr i, c ∈ numChars := by
  intro c hc
  by_cases h : i < 0
  · simp only [yearStr, if_pos h, List.mem_cons] at hc
    rcases hc with hc | hc
    · subst hc; decide
    · have h2 := decimal_chars (-i).toNat c hc
      revert h2
      intro h2
      fin_cases h2 <;> decide
  · simp only [yearStr, if_neg h] at hc
    have h2 := decimal_chars i.toNat c hc
    revert h2
    intro h2
    fin_cases h2 <;> decide

/-- None of the formatter's replacement characters is an uppercase token
letter, so replacements can never create or destroy later token matches. -/
theorem numChars_safe {c : Char} (h : c ∈ numChars) :
    c ≠ 'Y' ∧ c ≠ 'D' ∧ c ≠ 'H' ∧ c ≠ 'M' ∧ c ≠ 'S' := by
  fin_cases h <;> exact ⟨by decide, by decide, by decide, by decide, by decide⟩

-- ============================================================
-- Helper lemmas: scanning the console pattern
-- ============================================================

/-- Two-character match step, in cons form. -/
theorem replaceGo_matchTwo (p q : Char) (rep ys : List Char) :
    replaceGo (p :: [q]) rep (p :: q :: ys) 0 = rep ++ replaceGo (p :: [q]) rep ys 0 := by
  simpa using replaceGo_match p [q] rep ys

/-- Substituting `DD` into the partially substituted console pattern. -/
theorem consoleStepDD (yy dd : List Char) (hyy : ∀ c ∈ yy, c ≠ 'D') :
    replaceList (yy ++ ['-', 'M', 'M', '-', 'D', 'D', ' ', 'H', 'H', ':', 'M', 'M', ':', 'S', 'S'])
      ['D', 'D'] dd
    = yy ++ ('-' :: 'M' :: 'M' :: '-' ::
        (dd ++ [' ', 'H', 'H', ':', 'M', 'M', ':', 'S', 'S'])) := by
  unfold replaceList
  rw [if_neg (by decide), replaceGo_append 'D' ['D'] dd yy _ hyy]
  rfl

/-- Substituting `HH` after `YY` and `DD` have been substituted. -/
theorem consoleStepHH (yy dd hh : List Char)
    (hyy : ∀ c ∈ yy, c ≠ 'H') (hdd : ∀ c ∈ dd, c ≠ 'H') :
    replaceList (yy ++ ('-' :: 'M' :: 'M' :: '-' ::
        (dd ++ [' ', 'H', 'H', ':', 'M', 'M', ':', 'S', 'S']))) ['H', 'H'] hh
    = yy ++ ('-' :: 'M' :: 'M' :: '-' ::
        (dd ++ (' ' :: (hh ++ [':', 'M', 'M', ':', 'S', 'S'])))) := by
  unfold replaceList
  rw [if_neg (by decide), replaceGo_append 'H' ['H'] hh yy _ hyy,
    replaceGo_cons 'H' ['H'] hh '-' _ (by decide),
    replaceGo_cons 'H' ['H'] hh 'M' _ (by decide),
    replaceGo_cons 'H' ['H'] hh 'M' _ (by decide),
    replaceGo_cons 'H' ['H'] hh '-' _ (by decide),
    replaceGo_append 'H' ['H'] hh dd _ hdd]
  rfl

/-- Substituting `MM` (which occurs twice: the dash-separated position and
the colon-separated position) after `YY`, `DD`, `HH`. -/
theorem consoleStepMM (yy dd hh mi : List Char)
    (hyy : ∀ c ∈ yy, c ≠ 'M') (hdd : ∀ c ∈ dd, c ≠ 'M') (hhh : ∀ c ∈ hh, c ≠ 'M') :
    replaceList (yy ++ ('-' :: 'M' :: 'M' :: '-' ::
        (dd ++ (' ' :: (hh ++ [':', 'M', 'M', ':', 'S', 'S']))))) ['M', 'M'] mi
    = yy ++ ('-' :: (mi ++ ('-' ::
        (dd ++ (' ' :: (hh ++ (':' :: (mi ++ [':', 'S', 'S'])))))))) := by
  unfold replaceList
  rw [if_neg (by decide), replaceGo_append 'M' ['M'] mi yy _ hyy,
    replaceGo_cons 'M' ['M'] mi '-' _ (by decide),
    replaceGo_matchTwo 'M' 'M' mi,
    replaceGo_cons 'M' ['M'] mi '-' _ (by decide),
    replaceGo_append 'M' ['M'] mi dd _ hdd,
    replaceGo_cons 'M' ['M'] mi ' ' _ (by decide),
    replaceGo_append 'M' ['M'] mi hh _ hhh,
    replaceGo_cons 'M' ['M'] mi ':' _ (by decide),
    replaceGo_matchTwo 'M' 'M' mi]
  rfl

/-- Substituting `SS` last. -/
theorem consoleStepSS (yy dd hh mi ss : List Char)
    (hyy : ∀ c ∈ yy, c ≠ 'S') (hdd : ∀ c ∈ dd, c ≠ 'S')
    (hhh : ∀ c ∈ hh, c ≠ 'S') (hmi : ∀ c ∈ mi, c ≠ 'S') :
    replaceList (yy ++ ('-' :: (mi ++ ('-' ::
        (dd ++ (' ' :: (hh ++ (':' :: (mi ++ [':', 'S', 'S']))))))))) ['S', 'S'] ss
    = yy ++ ('-' :: (mi ++ ('-' ::
        (dd ++ (' ' :: (hh ++ (':' :: (mi ++ (':' :: ss))))))))) := by
  unfold replaceList
  rw [if_neg (by decide), replaceGo_append 'S' ['S'] ss yy _ hyy,
    replaceGo_cons 'S' ['S'] ss '-' _ (by decide),
    replaceGo_append 'S' ['S'] ss mi _ hmi,
    replaceGo_cons 'S' ['S'] ss '-' _ (by decide),
    replaceGo_append 'S' ['S'] ss dd _ hdd,
    replaceGo_cons 'S' ['S'] ss ' ' _ (by decide),
    replaceGo_append 'S' ['S'] ss hh _ hhh,
    replaceGo_cons 'S' ['S'] ss ':' _ (by decide),
    replaceGo_append 'S' ['S'] ss mi _ hmi,
    replaceGo_cons 'S' ['S'] ss ':' _ (by decide),
    replaceGo_matchTwo 'S' 'S' ss]
  have hnil : replaceGo ['S', 'S'] ss [] 0 = [] := rfl
  simp [hnil]

-- ============================================================
-- Helper lemmas: the sequential process model
-- ============================================================

/-- Once `TX` is set, no public operation unsets it. -/
theorem stepOp_tx (s : GlobalState) (op : LoggerOp) (h : s.tx = true) :
    ((stepOp s op).2).tx = true := by
  cases op with
  | initL m => simp [stepOp, init_logger, h]
  | initH cs m => simp [stepOp, init_logger_with_handlers, h]
  | send r =>
    simp only [stepOp, internal_send_log, h, if_pos]
    by_cases hr : s.receiverDropped <;> simp [hr, h]
  | query l => simpa [stepOp] using h

/-- Once `TX` is set, it stays set across any call sequence. -/
theorem runOps_tx (ops : List LoggerOp) : ∀ (s : GlobalState), s.tx = true →
    (runOps s ops).tx = true := by
  induction ops with
  | nil => intro s h; simpa [runOps] using h
  | cons op rest ih =>
    intro s h
    have : runOps s (op :: rest) = runOps ((stepOp s op).2) rest := rfl
    rw [this]
    exact ih _ (stepOp_tx s op h)

/-- Once `TX` is set, `MIN_LEVEL_LOG` is frozen: no operation rewrites it. -/
theorem stepOp_minLevel (s : GlobalState) (op : LoggerOp) (h : s.tx = true) :
    ((stepOp s op).2).minLevel = s.minLevel := by
  cases op with
  | initL m => simp [stepOp, init_logger, h]
  | initH cs m => simp [stepOp, init_logger_with_handlers, h]
  | send r =>
    simp only [stepOp, internal_send_log, h, if_pos]
    by_cases hr : s.receiverDropped <;> simp [hr]
  | query l => simp [stepOp]

/-- `MIN_LEVEL_LOG` is frozen across any call sequence once `TX` is set. -/
theorem runOps_minLevel (ops : List LoggerOp) : ∀ (s : GlobalState), s.tx = true →
    (runOps s ops).minLevel = s.minLevel := by
  induction ops with
  | nil => intro s _; rfl
  | cons op rest ih =>
    intro s h
    have heq : runOps s (op :: rest) = runOps ((stepOp s op).2) rest := rfl
    rw [heq, ih _ (stepOp_tx s op h), stepOp_minLevel s op h]

/-- Similarly, the spawned dispatch thread's handler list is frozen. -/
theorem stepOp_handlers (s : GlobalState) (op : LoggerOp) (h : s.tx = true) :
    ((stepOp s op).2).handlers = s.handlers := by
  cases op with
  | initL m => simp [stepOp, init_logger, h]
  | initH cs m => simp [stepOp, init_logger_with_handlers, h]
  | send r =>
    simp only [stepOp, internal_send_log, h, if_pos]
    by_cases hr : s.receiverDropped <;> simp [hr]
  | query l => simp [stepOp]

/-- No public operation ever drops the channel sender stored in `TX`. -/
theorem stepOp_senderDropped (s : GlobalState) (op : LoggerOp) :
    ((stepOp s op).2).senderDropped = s.senderDropped := by
  cases op with
  | initL m => by_cases h : s.tx <;> simp [stepOp, init_logger, h]
  | initH cs m => by_cases h : s.tx <;> simp [stepOp, init_logger_with_handlers, h]
  | send r =>
    by_cases h : s.tx <;>
      simp only [stepOp, internal_send_log, h, if_pos, if_neg, init_logger, Bool.false_eq_true,
        if_false] <;>
    · split <;> simp
  | query l => simp [stepOp]

/-- The sender stays undropped across any call sequence. -/
theorem runOps_senderDropped (ops : List LoggerOp) : ∀ (s : GlobalState),
    (runOps s ops).senderDropped = s.senderDropped := by
  induction ops with
  | nil => intro s; rfl
  | cons op rest ih =>
    intro s
    have heq : runOps s (op :: rest) = runOps ((stepOp s op).2) rest := rfl
    rw [heq, ih _, stepOp_senderDropped]

/-- The threshold recorded by a run from the fresh process state is the
one supplied by the first initializing operation. -/
theorem runOps_minLevel_init (ops : List LoggerOp) :
    (runOps initState ops).minLevel = firstInitThreshold ops
    ∧ (runOps initState ops).tx = (firstInitThreshold ops).isSome := by
  induction ops with
  | nil => exact ⟨rfl, rfl⟩
  | cons op rest ih =>
    cases op with
    | query l => exact ih
    | initL m =>
      have h1 : (stepOp initState (LoggerOp.initL m)).2.tx = true := by
        simp [stepOp, init_logger, initState]
      have h2 : (stepOp initState (LoggerOp.initL m)).2.minLevel = some m := by
        simp [stepOp, init_logger, initState]
      have heq : runOps initState (LoggerOp.initL m :: rest)
          = runOps ((stepOp initState (LoggerOp.initL m)).2) rest := rfl
      rw [heq]
      exact ⟨by rw [runOps_minLevel rest _ h1, h2]; rfl,
             by rw [runOps_tx rest _ h1]; rfl⟩
    | initH cs m =>
      have h1 : (stepOp initState (LoggerOp.initH cs m)).2.tx = true := by
        simp [stepOp, init_logger_with_handlers, initState]
      have h2 : (stepOp initState (LoggerOp.initH cs m)).2.minLevel = some m := by
        simp [stepOp, init_logger_with_handlers, initState]
      have heq : runOps initState (LoggerOp.initH cs m :: rest)
          = runOps ((stepOp initState (LoggerOp.initH cs m)).2) rest := rfl
      rw [heq]
      exact ⟨by rw [runOps_minLevel rest _ h1, h2]; rfl,
             by rw [runOps_tx rest _ h1]; rfl⟩
    | send r =>
      have h1 : (stepOp initState (LoggerOp.send r)).2.tx = true := by
        simp [stepOp, internal_send_log, init_logger, initState]
      have h2 : (stepOp initState (LoggerOp.send r)).2.minLevel = some 0 := by
        simp [stepOp, internal_send_log, init_logger, initState]
      have heq : runOps initState (LoggerOp.send r :: rest)
          = runOps ((stepOp initState (LoggerOp.send r)).2) rest := rfl
      rw [heq]
      exact ⟨by rw [runOps_minLevel rest _ h1, h2]; rfl,
             by rw [runOps_tx rest _ h1]; rfl⟩

/-- Handler calls made while the loop is still running contain no flush. -/
theorem filter_flush_handles (rs : List LogRecord) (hs : List Handler) :
    ((rs.flatMap fun r => hs.map fun h => LogEvent.handle h r).filter
      LogEvent.isFlushCall) = [] := by
  induction rs with
  | nil => rfl
  | cons r rest ih =>
    simp only [List.flatMap_cons, List.filter_append, ih, List.append_nil]
    induction hs with
    | nil => rfl
    | cons h hrest ih2 => simp [List.filter, LogEvent.isFlushCall] at ih2 ⊢

/-- The dispatch loop's trace, in closed form: every record fanned out to
every handler in list order, then one flush per handler in list order. -/
theorem logger_thread_spec (rx : List LogRecord) (hs : List Handler) :
    logger_thread rx hs
    = (rx.flatMap fun r => hs.map fun h => LogEvent.handle h r)
      ++ hs.map LogEvent.flushCall := by
  induction rx with
  | nil => simp [logger_thread]
  | cons r rest ih => simp [logger_thread, ih]

-- ============================================================
-- Claim theorems
-- ============================================================

/-- C3: for every severity `lvl`, `is_my_level lvl` (the code's
`passes_threshold`) is true iff `lvl >= min_level`, where `min_level` is
the threshold supplied at the one successful initialization of the run
(the explicit value for `init_logger` / `init_logger_with_handlers`, `0`
for the implicit default on first submission), or `0` if queried before
any initialization happened. -/
theorem is_my_level_matches_threshold_floor (ops : List LoggerOp) (lvl : Int) :
    is_my_level lvl (runOps initState ops)
      = decide ((firstInitThreshold ops).getD 0 ≤ lvl)
    ∧ (runOps initState ops).minLevel = firstInitThreshold ops := by
  have h := runOps_minLevel_init ops
  exact ⟨by rw [is_my_level, h.1], h.1⟩

/-- C4: once one initialization has succeeded — explicitly via either
init path, or implicitly on first submission — every later call to
`init_logger` or `init_logger_with_handlers` panics with
"Logger already initialized! ...", a fatal outcome (`some` in the panic
component), never a recoverable result. -/
theorem double_init_always_fatal (op₀ : LoggerOp) (h : op₀.initializes = true)
    (ops : List LoggerOp) (m : Int) (cs : List Handler) :
    (stepOp (runOps ((stepOp initState op₀).2) ops) (LoggerOp.initL m)).1
      = some ("Logger already initialized! Cannot initialize twice.".data)
    ∧ (stepOp (runOps ((stepOp initState op₀).2) ops) (LoggerOp.initH cs m)).1
      = some ("Logger already initialized! Cannot initialize twice.".data) := by
  have h1 : (stepOp initState op₀).2.tx = true := by
    cases op₀ with
    | query l => exact absurd h (by simp [LoggerOp.initializes])
    | initL m2 => simp [stepOp, init_logger, initState]
    | initH cs2 m2 => simp [stepOp, init_logger_with_handlers, initState]
    | send r => simp [stepOp, internal_send_log, init_logger, initState]
  have h2 := runOps_tx ops _ h1
  constructor
  · show (init_logger m (runOps ((stepOp initState op₀).2) ops)).1 = _
    simp [init_logger, h2]
  · show (init_logger_with_handlers cs m (runOps ((stepOp initState op₀).2) ops)).1 = _
    simp [init_logger_with_handlers, h2]

/-- Witness for C4: concretely, after `init_logger(0)`, both re-init
calls panic with the double-initialization message. -/
theorem double_init_always_fatal_witness :
    (stepOp (runOps ((stepOp initState (LoggerOp.initL 0)).2) []) (LoggerOp.initL 1)).1
      = some ("Logger already initialized! Cannot initialize twice.".data)
    ∧ (stepOp (runOps ((stepOp initState (LoggerOp.initL 0)).2) []) (LoggerOp.initH [] 1)).1
      = some ("Logger already initialized! Cannot initialize twice.".data) :=
  double_init_always_fatal (LoggerOp.initL 0) rfl [] 1 []

/-- Flushes of flush calls are all kept by the flush filter. -/
theorem filter_flush_flushes (hs : List Handler) :
    (hs.map LogEvent.flushCall).filter LogEvent.isFlushCall
      = hs.map LogEvent.flushCall := by
  induction hs with
  | nil => rfl
  | cons h rest ih => simp [List.filter, LogEvent.isFlushCall, ih]

/-- C5: the dispatch loop, owning a fixed ordered handler list (built by
the init paths with the console handler first), calls `handle(record)`
on every handler in list order for each received record, and on channel
closure calls `flush()` exactly once per handler in list order, then
terminates (the flush calls are exactly one trailing `flushCall` per
handler). -/
theorem dispatch_loop_fanout_and_flush (rx : List LogRecord) (hs : List Handler)
    (cs : List Handler) (m : Int) :
    logger_thread rx hs
      = (rx.flatMap fun r => hs.map fun h => LogEvent.handle h r)
        ++ hs.map LogEvent.flushCall
    ∧ (logger_thread rx hs).filter LogEvent.isFlushCall = hs.map LogEvent.flushCall
    ∧ (runOps initState [LoggerOp.initH cs m]).handlers = Handler.console :: cs
    ∧ (runOps initState [LoggerOp.initL m]).handlers = [Handler.console] := by
  refine ⟨logger_thread_spec rx hs, ?_, ?_, ?_⟩
  · rw [logger_thread_spec, List.filter_append, filter_flush_handles,
      filter_flush_flushes, List.nil_append]
  · simp [runOps, stepOp, init_logger_with_handlers, initState]
  · simp [runOps, stepOp, init_logger, initState]

/-- C9: the sender handle stored in the process-global `TX` static is
never dropped by any public operation, so across every call sequence the
channel never reports closure and the dispatch loop's flush-then-
terminate path stays unreachable: the observable dispatch trace contains
no flush call. -/
theorem sender_never_dropped_flush_unreachable (ops : List LoggerOp) :
    (runOps initState ops).senderDropped = false
    ∧ (dispatchEvents (runOps initState ops)).filter LogEvent.isFlushCall = [] := by
  have h : (runOps initState ops).senderDropped = false := by
    rw [runOps_senderDropped]; rfl
  refine ⟨h, ?_⟩
  rw [dispatchEvents, if_neg (by simp [h]), filter_flush_handles]

/-- A sample instant used for concrete evaluations. -/
def sampleInstant : UtcInstant :=
  { year := 2026, month := 10, day := 12, hour := 3, minute := 4, second := 5 }

/-- A severity-1 record, as `test_app`'s `Info` level would carry
(color `"\033[31m"`, heading `"INFO"`). -/
def lowRecord : LogRecord :=
  { color := octSpelling '3' '1', heading := ("INFO".data), msg := ("x".data)
  , timestamp := sampleInstant, lvl := 1 }

/-- C1: concrete evaluation of the code at the failing input. With the
logger initialized at threshold 4, a record of severity 1 does NOT pass
the threshold — yet `internal_send_log` enqueues it (it never inspects
`lvl`), and the dispatch loop hands it to the console handler. The claim
says such a record is dropped with no handler ever invoked; the code
delivers it to every handler. -/
theorem below_threshold_record_still_handled :
    is_my_level lowRecord.lvl
      (runOps initState [LoggerOp.initL 4, LoggerOp.send lowRecord]) = false
    ∧ (runOps initState [LoggerOp.initL 4, LoggerOp.send lowRecord]).sent = [lowRecord]
    ∧ LogEvent.handle Handler.console lowRecord
        ∈ logger_thread
            (runOps initState [LoggerOp.initL 4, LoggerOp.send lowRecord]).sent
            (runOps initState [LoggerOp.initL 4, LoggerOp.send lowRecord]).handlers := by
  exact ⟨by decide, by decide, by decide⟩

/-- C2: concrete evaluation of the generated `log()` at the failing
input. With threshold 4 configured, severity 1 fails `is_my_level` — but
the `log()` method emitted by `derive_log_level` performs no threshold
check at all: for every input it constructs its record literal (which
carries no severity field) and submits it. -/
theorem generated_log_submits_without_threshold_check :
    is_my_level 1 (runOps initState [LoggerOp.initL 4]) = false
    ∧ generated_log (octSpelling '3' '1') ("INFO".data) ("x".data) sampleInstant
        = some { color := octSpelling '3' '1', heading := ("INFO".data)
               , msg := ("x".data), timestamp := sampleInstant } := by
  exact ⟨by decide, rfl⟩

/-- C8: concrete schedule refuting race-freedom of the implicit default
initialization. Both threads run `internal_send_log` from the
uninitialized state; under the interleaving where both pass the outer
`TX.get().is_none()` check and `init_logger`'s inner `is_some` check
before either calls `TX.set`, the process ends up with TWO channels and
TWO dispatch threads, and the `TX.set` loser dies with the
`"Failed to set logger transmitter"` panic — contradicting "exactly one
channel and one dispatch thread are created, no thread fails fatally". -/
theorem racing_implicit_init_double_spawn_and_panic :
    (runRace [false, true, false, true, false, true, false, true]).spawns = 2
    ∧ (runRace [false, true, false, true, false, true, false, true]).chans = 2
    ∧ (runRace [false, true, false, true, false, true, false, true]).t1
        = RacePhase.finished
    ∧ (runRace [false, true, false, true, false, true, false, true]).t2
        = RacePhase.panicked ("Failed to set logger transmitter".data) := by
  exact ⟨rfl, rfl, rfl, by decide⟩

/-- A valid instant whose year has fewer than four decimal digits. -/
def ancientInstant : UtcInstant :=
  { year := 99, month := 1, day := 2, hour := 3, minute := 4, second := 5 }

/-- A record carrying that instant. -/
def ancientRecord : LogRecord :=
  { color := octSpelling '3' '2', heading := ("EVENT".data), msg := ("m".data)
  , timestamp := ancientInstant, lvl := 3 }

/-- C6 counterexample: the `YYYY` token is replaced by the year's plain
`to_string()` rendering, not a fixed 4-digit rendering, so at the instant
with year 99 the pattern `"YYYY"` formats to `"99"` — the output length
(2) differs from the pattern length (4), refuting the claim as stated
for every instant. -/
theorem format_yyyy_width_counterexample :
    ¬ ((format_log_record_time ancientRecord ("YYYY".data)).length
        = ("YYYY".data).length) := by
  decide

/-- C6 (amended): for every pattern and every instant whose year is
between 1000 and 9999 (so that its plain decimal rendering happens to
have 4 characters) and whose remaining calendar fields are at most 99
(always true of real instants), `format_log_record_time` returns a
string whose length equals the pattern's length, each token substring
replaced by a fixed-width rendering — 2 zero-padded digits for `YY`,
`DD`, `HH`, `MM`, `SS`, and the 4-digit unpadded year for `YYYY`. -/
theorem format_length_eq_of_four_digit_year (r : LogRecord) (pattern : List Char)
    (hy1 : 1000 ≤ r.timestamp.year) (hy2 : r.timestamp.year ≤ 9999)
    (hd : r.timestamp.day ≤ 99) (hh : r.timestamp.hour ≤ 99)
    (hm : r.timestamp.minute ≤ 99) (hs : r.timestamp.second ≤ 99) :
    (format_log_record_time r pattern).length = pattern.length := by
  have hyear : (yearStr r.timestamp.year).length = 4 := by
    rw [yearStr, if_neg (by omega), decimal_length]
    exact digitsLen_year (by omega) (by omega)
  have hyy : (pad2Int (Int.tmod r.timestamp.year 100)).length = 2 := by
    have h0 : 0 ≤ Int.tmod r.timestamp.year 100 := Int.tmod_nonneg 100 (by omega)
    have h99 : Int.tmod r.timestamp.year 100 < 100 := Int.tmod_lt_of_pos _ (by omega)
    rw [pad2Int, if_neg (by omega)]
    exact pad2Nat_length (by omega)
  unfold format_log_record_time
  rw [replaceList_length _ _ _ (by rw [pad2Nat_length hs]; rfl),
    replaceList_length _ _ _ (by rw [pad2Nat_length hm]; rfl),
    replaceList_length _ _ _ (by rw [pad2Nat_length hh]; rfl),
    replaceList_length _ _ _ (by rw [pad2Nat_length hd]; rfl),
    replaceList_length _ _ _ (by rw [hyy]; rfl),
    replaceList_length _ _ _ (by rw [hyear]; rfl)]

/-- A record with a 4-digit year, for the concrete witness. -/
def modernRecord : LogRecord :=
  { color := octSpelling '3' '2', heading := ("EVENT".data), msg := ("ok".data)
  , timestamp := sampleInstant, lvl := 4 }

/-- Witness for the amended C6: at a concrete 4-digit-year instant the
console pattern formats to a string of the same length (17). -/
theorem format_length_eq_witness :
    (format_log_record_time modernRecord consolePattern).length
      = consolePattern.length :=
  format_length_eq_of_four_digit_year modernRecord consolePattern (by decide) (by decide)
    (by decide) (by decide) (by decide) (by decide)

/-- The mapper always returns the given text unchanged. -/
theorem ansi_text (ansi text : List Char) : (ansi_to_colored ansi text).text = text := by
  simp only [ansi_to_colored, apply_ite ColoredString.text, ite_self]

/-- The chosen style depends only on the code, not on the text. -/
theorem ansi_fg_text_indep (ansi t1 t2 : List Char) :
    (ansi_to_colored ansi t1).fg = (ansi_to_colored ansi t2).fg := by
  simp only [ansi_to_colored, apply_ite ColoredString.fg]

/-- Each table entry's two spellings map to that entry's style. -/
theorem ansiTable_fg : ∀ e ∈ ansiTable,
    (ansi_to_colored e.1.1 []).fg = e.2 ∧ (ansi_to_colored e.1.2 []).fg = e.2 := by
  decide

set_option maxHeartbeats 1000000 in
/-- C7: `ansi_to_colored` is total with no error case: it always returns
the given text with some style; each of the 16 recognized codes, in
either of its two textual spellings, maps to its corresponding named
style (per the source's match table); and every other input string maps
to the default white style. -/
theorem ansi_to_colored_total_spec (ansi text : List Char) :
    (ansi_to_colored ansi text).text = text
    ∧ (∀ oc hx c, ((oc, hx), c) ∈ ansiTable → ansi = oc ∨ ansi = hx →
        ansi_to_colored ansi text = ⟨text, c⟩)
    ∧ (ansi ∉ recognizedCodes → ansi_to_colored ansi text = ⟨text, TermColor.white⟩) := by
  refine ⟨ansi_text ansi text, ?_, ?_⟩
  · intro oc hx c hmem hor
    have hfg : (ansi_to_colored ansi text).fg = c := by
      rcases hor with h | h <;> subst h
      · rw [ansi_fg_text_indep _ _ []]
        exact (ansiTable_fg _ hmem).1
      · rw [ansi_fg_text_indep _ _ []]
        exact (ansiTable_fg _ hmem).2
    have heta : ansi_to_colored ansi text
        = ⟨(ansi_to_colored ansi text).text, (ansi_to_colored ansi text).fg⟩ := rfl
    rw [heta, ansi_text ansi text, hfg]
  · intro hn
    have hne : ∀ x ∈ recognizedCodes, ansi ≠ x := fun x hx e => hn (e ▸ hx)
    unfold ansi_to_colored
    rw [if_neg (fun hor => hor.elim (hne _ (by decide)) (hne _ (by decide))),
      if_neg (fun hor => hor.elim (hne _ (by decide)) (hne _ (by decide))),
      if_neg (fun hor => hor.elim (hne _ (by decide)) (hne _ (by decide))),
      if_neg (fun hor => hor.elim (hne _ (by decide)) (hne _ (by decide))),
      if_neg (fun hor => hor.elim (hne _ (by decide)) (hne _ (by decide))),
      if_neg (fun hor => hor.elim (hne _ (by decide)) (hne _ (by decide))),
      if_neg (fun hor => hor.elim (hne _ (by decide)) (hne _ (by decide))),
      if_neg (fun hor => hor.elim (hne _ (by decide)) (hne _ (by decide))),
      if_neg (fun hor => hor.elim (hne _ (by decide)) (hne _ (by decide))),
      if_neg (fun hor => hor.elim (hne _ (by decide)) (hne _ (by decide))),
      if_neg (fun hor => hor.elim (hne _ (by decide)) (hne _ (by decide))),
      if_neg (fun hor => hor.elim (hne _ (by decide)) (hne _ (by decide))),
      if_neg (fun hor => hor.elim (hne _ (by decide)) (hne _ (by decide))),
      if_neg (fun hor => hor.elim (hne _ (by decide)) (hne _ (by decide))),
      if_neg (fun hor => hor.elim (hne _ (by decide)) (hne _ (by decide))),
      if_neg (fun hor => hor.elim (hne _ (by decide)) (hne _ (by decide)))]

/-- Witness for C7: a recognized code in its ESC spelling maps to red,
and an unrecognized string maps to the default white style. -/
theorem ansi_to_colored_total_spec_witness :
    ansi_to_colored (hexSpelling '3' '1') ("E".data)
      = { text := ("E".data), fg := TermColor.red }
    ∧ ansi_to_colored ("weird".data) ("E".data)
      = { text := ("E".data), fg := TermColor.white } :=
  ⟨(ansi_to_colored_total_spec (hexSpelling '3' '1') ("E".data)).2.1
      (octSpelling '3' '1') (hexSpelling '3' '1') TermColor.red (by decide) (Or.inr rfl),
   (ansi_to_colored_total_spec ("weird".data) ("E".data)).2.2 (by decide)⟩

/-- C10: token substitution replaces every occurrence of each token, not
only the first. The console handler's pattern `"YY-MM-DD HH:MM:SS"`
contains `MM` twice, and since `MM` denotes the minute (there is no month
token), the formatter renders the minute in both the month position and
the minute position; the record's month field never influences the
console output. -/
theorem console_pattern_minute_in_month_position (r : LogRecord) (m2 : Nat) :
    format_log_record_time r consolePattern
      = pad2Int (Int.tmod r.timestamp.year 100)
        ++ ('-' :: (pad2Nat r.timestamp.minute
        ++ ('-' :: (pad2Nat r.timestamp.day
        ++ (' ' :: (pad2Nat r.timestamp.hour
        ++ (':' :: (pad2Nat r.timestamp.minute
        ++ (':' :: pad2Nat r.timestamp.second)))))))))
    ∧ console_handle_line { r with timestamp := { r.timestamp with month := m2 } }
        = console_handle_line r := by
  constructor
  · have hyy := pad2Int_chars (Int.tmod r.timestamp.year 100)
    have hdd := pad2Nat_chars r.timestamp.day
    have hhh := pad2Nat_chars r.timestamp.hour
    have hmi := pad2Nat_chars r.timestamp.minute
    unfold format_log_record_time
    rw [show consolePattern
        = ['Y', 'Y', '-', 'M', 'M', '-', 'D', 'D', ' ', 'H', 'H', ':', 'M', 'M', ':', 'S', 'S']
        from rfl,
      show ("YYYY".data) = ['Y', 'Y', 'Y', 'Y'] from rfl,
      show ("YY".data) = ['Y', 'Y'] from rfl,
      show ("DD".data) = ['D', 'D'] from rfl,
      show ("HH".data) = ['H', 'H'] from rfl,
      show ("MM".data) = ['M', 'M'] from rfl,
      show ("SS".data) = ['S', 'S'] from rfl]
    rw [show replaceList
        ['Y', 'Y', '-', 'M', 'M', '-', 'D', 'D', ' ', 'H', 'H', ':', 'M', 'M', ':', 'S', 'S']
        ['Y', 'Y', 'Y', 'Y'] (yearStr r.timestamp.year)
        = ['Y', 'Y', '-', 'M', 'M', '-', 'D', 'D', ' ', 'H', 'H', ':', 'M', 'M', ':', 'S', 'S']
        from rfl]
    rw [show replaceList
        ['Y', 'Y', '-', 'M', 'M', '-', 'D', 'D', ' ', 'H', 'H', ':', 'M', 'M', ':', 'S', 'S']
        ['Y', 'Y'] (pad2Int (Int.tmod r.timestamp.year 100))
        = pad2Int (Int.tmod r.timestamp.year 100)
          ++ ['-', 'M', 'M', '-', 'D', 'D', ' ', 'H', 'H', ':', 'M', 'M', ':', 'S', 'S']
        from rfl]
    rw [consoleStepDD _ _ (fun c hc => (numChars_safe (hyy c hc)).2.1)]
    rw [consoleStepHH _ _ _
      (fun c hc => (numChars_safe (hyy c hc)).2.2.1)
      (fun c hc => (numChars_safe (hdd c hc)).2.2.1)]
    rw [consoleStepMM _ _ _ _
      (fun c hc => (numChars_safe (hyy c hc)).2.2.2.1)
      (fun c hc => (numChars_safe (hdd c hc)).2.2.2.1)
      (fun c hc => (numChars_safe (hhh c hc)).2.2.2.1)]
    rw [consoleStepSS _ _ _ _ _
      (fun c hc => (numChars_safe (hyy c hc)).2.2.2.2)
      (fun c hc => (numChars_safe (hdd c hc)).2.2.2.2)
      (fun c hc => (numChars_safe (hhh c hc)).2.2.2.2)
      (fun c hc => (numChars_safe (hmi c hc)).2.2.2.2)]
  · rfl
